import Mathlib

/-!
Verification of the `cobamp` K-shortest EFM enumeration core
(`src/cobamp/algorithms/kshortest.py`) through a shallow embedding:
the data manipulated by `KShortestEnumerator`, its integer-cut and
size-constraint bookkeeping, the enumeration strategies, and the
intervention-problem constraint classes are translated to executable
Lean definitions and their specified properties are proved or refuted.

Conventions: solver variables are identified by natural-number indices,
numeric values are rationals, a bound of `none` stands for an absent
(infinite) bound, and Python dictionaries keyed by insertion order are
association lists.
-/

namespace Cobamp

/-- A linear constraint row as produced by `add_rows_to_model` for a cut:
the listed variables all carry coefficient 1 (`ones((1, len(cut_vars)))`),
with an optional lower and upper bound. -/
structure CutRow where
  vars : List Nat
  blb : Option ℚ
  bub : Option ℚ
  deriving DecidableEq, Repr

/-- The per-instance data of `KShortestEnumerator` consulted by
`__add_integer_cut`: `__dvar_mapping` (reaction → its decision variables,
already normalised so that a scalar entry is a one-element list, matching
`if not isinstance(dvl, (tuple, list)): dvl = [dvl]`), `__dvars`
(decision-variable index list), `indicator_map` (dvar → indicator variable)
and `__efp_auxiliary_map` (indicator variable → auxiliary `hv` variable). -/
structure EnumSetup where
  dvar_mapping : List (Nat × List Nat)
  dvars : List Nat
  indicator_map : Nat → Nat
  efp_aux_map : Nat → Nat

/-- `indicator_idx = [self.indicator_map[k] for k in [self.__dvars[k] for k in dvl]]`:
the indicator variables of one dvar group. -/
def groupIndicators (s : EnumSetup) (dvl : List Nat) : List Nat :=
  dvl.map (fun k => s.indicator_map (s.dvars.getD k 0))

/-- `sum([abs(value_map[i]) for i in indicator_idx]) > eps`: the activity
test deciding whether a dvar group contributes to an integer cut. -/
def groupActive (s : EnumSetup) (value_map : Nat → ℚ) (eps : ℚ) (dvl : List Nat) : Bool :=
  decide (eps < ((groupIndicators s dvl).map (fun i => |value_map i|)).sum)

/-- The variables a single active group contributes to the cut: its
indicator variables, followed (for EFP/pattern problems) by their
auxiliary variables. -/
def groupCutVars (s : EnumSetup) (efp_cut : Bool) (dvl : List Nat) : List Nat :=
  groupIndicators s dvl ++ (if efp_cut then (groupIndicators s dvl).map s.efp_aux_map else [])

/-- One iteration of the `for var, dvl in self.__dvar_mapping.items():` loop in
`__add_integer_cut`, threading the accumulator `(cut_length, cut_vars)`. -/
def cutStep (s : EnumSetup) (value_map : Nat → ℚ) (efp_cut : Bool) (eps : ℚ)
    (acc : Nat × List Nat) (p : Nat × List Nat) : Nat × List Nat :=
  if groupActive s value_map eps p.2 then
    (acc.1 + 1, acc.2 ++ groupCutVars s efp_cut p.2)
  else acc

/-- `KShortestEnumerator.__add_integer_cut(value_map, efp_cut, equality,
length_override, eps)`: runs the accumulation loop over `__dvar_mapping`,
then adds one row with coefficient 1 on every collected variable,
upper bound `rhs_value = cut_length - (length_override * int(not efp_cut))`,
and lower bound equal to it exactly when `equality` is set. -/
def add_integer_cut (s : EnumSetup) (value_map : Nat → ℚ) (efp_cut equality : Bool)
    (length_override : ℚ) (eps : ℚ) : CutRow :=
  let acc := s.dvar_mapping.foldl (cutStep s value_map efp_cut eps) (0, [])
  let rhs : ℚ := (acc.1 : ℚ) - length_override * (if efp_cut then 0 else 1)
  { vars := acc.2, blb := if equality then some rhs else none, bub := some rhs }

/-- The groups of `__dvar_mapping` whose activity test passes. -/
def activeGroups (s : EnumSetup) (value_map : Nat → ℚ) (eps : ℚ) :
    List (Nat × List Nat) :=
  s.dvar_mapping.filter (fun p => groupActive s value_map eps p.2)

/-- The default activity threshold `eps=1e-6` of `__add_integer_cut`. -/
def default_eps : ℚ := 1 / 1000000

/-- A one-reaction setup: one irreversible reaction whose decision variable 7
has indicator variable 8; auxiliary variables are offset by 100. -/
def exSetup : EnumSetup where
  dvar_mapping := [(0, [0])]
  dvars := [7]
  indicator_map := fun k => k + 1
  efp_aux_map := fun k => k + 100

/-- A row as stored in the solver problem's constraint container
(`self.model.model.constraints`), carrying its optlang name (`""` when the
caller sets none, as `add_rows_to_model` is called without names for cuts). -/
structure NamedRow where
  name : String
  row : CutRow
  deriving DecidableEq, Repr

/-- The mutable problem state of a `KShortestEnumerator`: the constraint
store, where each row is tagged with a creation identifier standing for
Python object identity (so that the bookkeeping list `self.__integer_cuts`
can refer to rows), the identifiers tracked in `self.__integer_cuts`, and
the fresh-identifier counter. -/
structure EnumProblem where
  next_id : Nat
  rows : List (Nat × NamedRow)
  integer_cut_ids : List Nat
  deriving DecidableEq, Repr

/-- Modelled from the spec: `ConstraintBasedModel.add_rows_to_model`
(`cobamp.core.models`, not under `src/`) appends the given row to the
problem it wraps (sections 4.3 and 4.4 describe cut and size rows as rows
added to the same mutable problem) and returns the created constraint,
here represented by its identifier. -/
def addRow (st : EnumProblem) (name : String) (r : CutRow) : EnumProblem × Nat :=
  ({ st with
      next_id := st.next_id + 1,
      rows := st.rows ++ [(st.next_id, ⟨name, r⟩)] },
   st.next_id)

/-- The name given to the single size-constraint row. -/
def KSH_SIZE_NAME : String := "KSH_SizeConstraint_"

/-- `'KSH_SizeConstraint_' in self.model.model.constraints`. -/
def hasSizeRow (st : EnumProblem) : Bool :=
  st.rows.any (fun p => p.2.name == KSH_SIZE_NAME)

/-- Modelled from the spec: `ConstraintBasedModel.set_constraint_bounds`
(`cobamp.core.models`, not under `src/`) updates the bounds of the addressed
constraints in place (section 4.3: "re-invoking with a different `k` updates
the same row's bounds in place"); the constraint container addresses rows by
their unique name. -/
def setRowBoundsByName (st : EnumProblem) (name : String) (lb ub : Option ℚ) :
    EnumProblem :=
  { st with
      rows := st.rows.map (fun p =>
        if p.2.name = name then (p.1, ⟨p.2.name, ⟨p.2.row.vars, lb, ub⟩⟩) else p) }

/-- `KShortestEnumerator.set_size_constraint(start_at, equal=False)`:
if a row named `KSH_SizeConstraint_` already exists its bounds are updated
in place to `[start_at, start_at]` (`equal`) or `[start_at, ∞)`; otherwise
one new row with coefficient 1 on every indicator variable (`ivars`) and
those bounds is added under that name. -/
def set_size_constraint (st : EnumProblem) (ivars : List Nat) (start_at : ℚ)
    (equal : Bool) : EnumProblem :=
  if hasSizeRow st then
    setRowBoundsByName st KSH_SIZE_NAME (some start_at)
      (if equal then some start_at else none)
  else
    (addRow st KSH_SIZE_NAME ⟨ivars, some start_at, if equal then some start_at else none⟩).1

/-- `__add_integer_cut` as a state transition: the computed cut row is added
to the problem and the created constraint is appended to `self.__integer_cuts`. -/
def op_add_integer_cut (st : EnumProblem) (s : EnumSetup) (value_map : Nat → ℚ)
    (efp_cut equality : Bool) (length_override eps : ℚ) : EnumProblem :=
  let r := addRow st "" (add_integer_cut s value_map efp_cut equality length_override eps)
  { r.1 with integer_cut_ids := r.1.integer_cut_ids ++ [r.2] }

/-- `KShortestEnumerator.__populate`: wraps each raw solution from the solver
pool (`self.optimizer.populate(999999)`, abstracted here as a list of raw
value maps or a propagated solver error) into a `KShortestSolution`, and then
adds an integer cut for each one via
`self.__add_integer_cut(sol.var_values(), efp_cut=self.is_efp_problem)` —
that is, with the defaults `equality=False`, `length_override=1`, `eps=1e-6`.
`populateFold` is that per-solution cut loop. -/
def populateFold (s : EnumSetup) (is_efp : Bool) (sols : List (Nat → ℚ))
    (st : EnumProblem) : EnumProblem :=
  sols.foldl (fun acc vm => op_add_integer_cut acc s vm is_efp false 1 default_eps) st

/-- `KShortestEnumerator.__populate`: wraps each raw solution from the solver
pool (`self.optimizer.populate(999999)`, abstracted here as a list of raw
value maps or a propagated solver error) into a `KShortestSolution`, and then
adds an integer cut for each one via `populateFold`; a solver error is
re-raised (`except Exception as e: raise e`). -/
def populate (s : EnumSetup) (is_efp : Bool)
    (rawsols : Except String (List (Nat → ℚ))) (st : EnumProblem) :
    Except String (List (Nat → ℚ) × EnumProblem) :=
  match rawsols with
  | .error e => .error e
  | .ok sols => .ok (sols, populateFold s is_efp sols st)

/-- A problem state holding no rows at all. -/
def emptyProblem : EnumProblem where
  next_id := 0
  rows := []
  integer_cut_ids := []

/-- An element of the iterable accepted by `__add_cuts` / `exclude_solutions`
/ `force_solutions`: either a prior `KShortestSolution` (carrying its value
map) or a raw list/tuple of reaction indices. -/
inductive SolInput
  | solution (value_map : Nat → ℚ)
  | rawTuple (rxs : List Nat)

/-- Outcome of calling a Python method: a value, or an uncaught `TypeError`. -/
inductive PyCall (α : Type)
  | ok (value : α)
  | typeError (msg : String)
  deriving Repr

/-- The body of `KShortestEnumerator.__add_cuts(sols, length_override,
equality)`: a `KShortestSolution` element goes through `__add_integer_cut`
with the given override and equality flag; a raw list/tuple element adds one
row with coefficient 1 on the indicator variable of every decision variable
(`ivars = [self.indicator_map[k] for k in self.__dvars]`), sense `L` and
right-hand side `len(sol) - 1`, named `exclusion_cuts0` (the name embeds
`len(self.__exclusion_cuts)`, a list nothing in the module ever appends to). -/
def add_cuts_body (s : EnumSetup) (is_efp : Bool) (st : EnumProblem)
    (sols : List SolInput) (length_override : ℚ) (equality : Bool) : EnumProblem :=
  sols.foldl (fun acc sol =>
    match sol with
    | .solution vm => op_add_integer_cut acc s vm is_efp equality length_override default_eps
    | .rawTuple rxs =>
        (addRow acc ("exclusion_cuts0")
          ⟨s.dvars.map s.indicator_map, none, some ((rxs.length : ℚ) - 1)⟩).1) st

/-- `KShortestEnumerator.exclude_solutions(sols)` executes
`self.__add_cuts(sols, length_override=0)`; `__add_cuts` declares three
required parameters `(sols, length_override, equality)` and this call
supplies no `equality`, so Python raises a `TypeError` for the missing
required positional argument before any of the body runs — the problem
state is never touched. -/
def exclude_solutions (s : EnumSetup) (is_efp : Bool) (st : EnumProblem)
    (sols : List SolInput) : PyCall EnumProblem :=
  .typeError "__add_cuts missing 1 required positional argument: equality"

/-- `KShortestEnumerator.force_solutions(sols)`:
`self.__add_cuts(sols, length_override=0, equality=True)`. -/
def force_solutions (s : EnumSetup) (is_efp : Bool) (st : EnumProblem)
    (sols : List SolInput) : PyCall EnumProblem :=
  .ok (add_cuts_body s is_efp st sols 0 true)

/-- A two-reaction setup: two irreversible reactions with decision variables
0 and 1 whose indicators are variables 10 and 11. -/
def twoSetup : EnumSetup where
  dvar_mapping := [(0, [0]), (1, [1])]
  dvars := [0, 1]
  indicator_map := fun k => k + 10
  efp_aux_map := fun k => k + 200

/-- A solver variable created by the indicator encoder: its name, optional
lower and upper bound (`none` is an absent/infinite bound), and whether it
was created with the binary variable type. -/
structure VarSpec where
  name : String
  lb : Option ℚ
  ub : Option ℚ
  binary : Bool
  deriving DecidableEq, Repr

/-- Modelled from the spec: `ConstraintBasedModel.add_variables_to_model`
(`cobamp.core.models`, not under `src/`) creates one solver variable per
given name, taking its bounds element-wise from the `lb`/`ub` lists and
giving every created variable the passed variable type (section 4.1
describes this call as creating the indicator and auxiliary variables with
the bounds supplied here). -/
def add_variables_to_model (names : List String) (lb ub : List ℚ)
    (binary : Bool) : List VarSpec :=
  (names.zip (lb.zip ub)).map (fun p => ⟨p.1, some p.2.1, some p.2.2, binary⟩)

/-- The variable-creation loop of `__add_kshortest_indicators`:
`ilb, iub = [0]*5, [1]*5`, `itype = VAR_BINARY`, names
`[k + str(dvar) for k in ['i','a','b','c','d']]`, and per dvar one call
`add_variables_to_model(vars, lb=ilb, ub=iub, var_types=itype)`. -/
def add_kshortest_indicator_vars (dvars : List Nat) : List VarSpec :=
  dvars.flatMap (fun d =>
    add_variables_to_model
      [ "i" ++ toString d, "a" ++ toString d, "b" ++ toString d,
        "c" ++ toString d, "d" ++ toString d ]
      (List.replicate 5 0) (List.replicate 5 1) true)

/-- The 6×5 `template_matrix` of `__add_kshortest_indicators`. -/
def template_matrix : List (List ℚ) :=
  [[1, 1, 0, 0, 0], [0, -1, 1, 0, 0], [-1, 0, 0, 1, 0], [0, 0, 0, -1, 1],
   [0, 0, 0, 0, 0], [0, 0, 0, 0, 0]]

/-- `template_blb = [1,0,0,0,0,0]`. -/
def template_blb : List (Option ℚ) :=
  [some 1, some 0, some 0, some 0, some 0, some 0]

/-- `template_bub = [1,None,0,None,0,None]`. -/
def template_bub : List (Option ℚ) :=
  [some 1, none, some 0, none, some 0, none]

/-- `row_blb = template_blb * len(dvars)` (Python list repetition). -/
def row_blb (n : Nat) : List (Option ℚ) := (List.replicate n template_blb).flatten

/-- `row_bub = template_bub * len(dvars)`. -/
def row_bub (n : Nat) : List (Option ℚ) := (List.replicate n template_bub).flatten

/-- `template_full`: the 6n×5n matrix that starts as zeros and receives one
copy of the template per dvar through the disjoint slice assignments
`template_full[i*trows:(i+1)*trows, i*tcols:(i+1)*tcols] = template_matrix`,
written as the resulting entry function. -/
def template_full (n : Nat) (r c : Nat) : ℚ :=
  if r / 6 = c / 5 ∧ r < 6 * n ∧ c < 5 * n then
    (template_matrix.getD (r % 6) []).getD (c % 5) 0
  else 0

/-- `diag`: the 6n×n matrix that starts as zeros and receives
`diag[(i*trows)+4][i] = 1` and `diag[(i*trows)+5][i] = 1` per dvar. -/
def diag_block (n : Nat) (r c : Nat) : ℚ :=
  if c < n ∧ (r = 6 * c + 4 ∨ r = 6 * c + 5) then 1 else 0

/-- `crow`: the length-6n column that starts as zeros and receives
`crow[(i*trows)+5] = -1` per dvar. -/
def crow (n : Nat) (r : Nat) : ℚ :=
  if r % 6 = 5 ∧ r < 6 * n then -1 else 0

/-- `nrowmat = hstack([diag, template_full, crow.reshape(-1,1)])`: columns
`0..n-1` are the diagonal block (dvar variables), `n..6n-1` the per-dvar
template blocks, and column `6n` the `c`-variable column. -/
def nrowmat (n : Nat) (r c : Nat) : ℚ :=
  if c < n then diag_block n r c
  else if c < 6 * n then template_full n r (c - n)
  else if c = 6 * n then crow n r
  else 0

/-- The `indicator_rows` list passed to `add_rows_to_model`: per dvar `i`
the tuples `((i*trows)+4, len(dvars)+(i*tcols)+2, 1)` and
`((i*trows)+5, len(dvars)+(i*tcols)+4, 1)` conditioning those two rows on
the indicator variable. -/
def indicator_rows (n : Nat) : List (Nat × Nat × Nat) :=
  (List.range n).flatMap (fun i => [(6*i+4, n + 5*i + 2, 1), (6*i+5, n + 5*i + 4, 1)])

/-- `KShortestEnumerator.reset_enumerator_state`: rebuilds the optimizer
handle, removes from the problem every row tracked in `self.__integer_cuts`
(`self.model.model.remove(self.__integer_cuts)`; `remove` is modelled from
the spec — resetting "remove[s] all integer cuts" and only them), clears the
tracking list, and calls `set_size_constraint(1)`. -/
def reset_enumerator_state (st : EnumProblem) (ivars : List Nat) : EnumProblem :=
  set_size_constraint
    { st with
        rows := st.rows.filter (fun p => !(st.integer_cut_ids.contains p.1)),
        integer_cut_ids := [] }
    ivars 1 false

/-- `KShortestEnumerator.get_single_solution` for one solver call:
`__optimize` yields `none` on any non-optimal status or caught solver
exception (it prints and falls through); `none` makes `get_single_solution`
raise `Exception('Solution is empty')`, otherwise the solution receives an
integer cut (`efp_cut=self.is_efp_problem`, defaults `equality=False`,
`length_override=1`, `eps=1e-6`) and is returned. -/
def get_single_solution (s : EnumSetup) (is_efp : Bool)
    (outcome : Option (Nat → ℚ)) (st : EnumProblem) :
    Except String ((Nat → ℚ) × EnumProblem) :=
  match outcome with
  | none => .error "Solution is empty"
  | some vm => .ok (vm, op_add_integer_cut st s vm is_efp false 1 default_eps)

/-- The `while not failed and i < maximum_amount` loop of
`solution_iterator`: each round tries `get_single_solution` on the next
solver outcome, yields the result and continues on success, and on the
caught exception prints and stops (`failed = True`). The remaining budget
`maximum_amount - i` is the structural fuel; the solver behaviour is
abstracted as the sequence `outcomes` of per-call `__optimize` results. -/
def solution_iterator_loop (s : EnumSetup) (is_efp : Bool)
    (outcomes : Nat → Option (Nat → ℚ)) :
    Nat → Nat → EnumProblem → List (Nat → ℚ) × EnumProblem
  | _, 0, st => ([], st)
  | k, fuel+1, st =>
    match get_single_solution s is_efp (outcomes k) st with
    | .error _ => ([], st)
    | .ok (vm, st2) =>
      let r := solution_iterator_loop s is_efp outcomes (k+1) fuel st2
      (vm :: r.1, r.2)

/-- The states the `solution_iterator` loop passes through, in order. -/
def solution_iterator_trace (s : EnumSetup) (is_efp : Bool)
    (outcomes : Nat → Option (Nat → ℚ)) :
    Nat → Nat → EnumProblem → List EnumProblem
  | _, 0, st => [st]
  | k, fuel+1, st =>
    match get_single_solution s is_efp (outcomes k) st with
    | .error _ => [st]
    | .ok (_, st2) => st :: solution_iterator_trace s is_efp outcomes (k+1) fuel st2

/-- `KShortestEnumerator.solution_iterator(maximum_amount=2**31-1)`:
resets the enumerator state, sets the size constraint to 1, and runs the
yield loop from `i = 0`. -/
def solution_iterator (s : EnumSetup) (is_efp : Bool) (ivars : List Nat)
    (outcomes : Nat → Option (Nat → ℚ)) (maximum_amount : Nat)
    (st : EnumProblem) : List (Nat → ℚ) × EnumProblem :=
  solution_iterator_loop s is_efp outcomes 0 maximum_amount
    (set_size_constraint (reset_enumerator_state st ivars) ivars 1 false)

/-- The solutions the iterate loop emits as a function of the solver
outcomes alone: the successive `__optimize` results up to the first
no-solution outcome, truncated at the remaining budget. -/
def collected (outcomes : Nat → Option (Nat → ℚ)) :
    Nat → Nat → List (Nat → ℚ)
  | _, 0 => []
  | k, fuel+1 =>
    match outcomes k with
    | none => []
    | some vm => vm :: collected outcomes (k+1) fuel

/-- The size constraint stays at the freshly reset bounds `[1, ∞)`:
every row named `KSH_SizeConstraint_` carries lower bound 1 and no upper
bound. -/
def size_rows_fixed_at_one (st : EnumProblem) : Prop :=
  ∀ p ∈ st.rows, p.2.name = KSH_SIZE_NAME →
    p.2.row.blb = some 1 ∧ p.2.row.bub = none

/-- The number of rows named `KSH_SizeConstraint_` in the problem. -/
def sizeRowCount (st : EnumProblem) : Nat :=
  (st.rows.filter (fun p => p.2.name == KSH_SIZE_NAME)).length

/-- A small concrete problem: one size row with bounds [5,5] and one
tracked integer cut row. -/
def resetWitnessState : EnumProblem where
  next_id := 2
  rows := [(0, ⟨KSH_SIZE_NAME, ⟨[8], some 5, some 5⟩⟩),
           (1, ⟨"", ⟨[8], none, some 0⟩⟩)]
  integer_cut_ids := [1]

/-- `DefaultFluxbound(lb, ub, r_index)`; a bound of `None` is `none`. -/
structure DefaultFluxbound where
  lb : Option ℚ
  ub : Option ℚ
  r_index : Nat

/-- `DefaultFluxbound.materialize(n)`: when the lower bound is set, a row
that is `zeros((1, n))` with `-1` at `r_index` and b entry `-lb`; when the
upper bound is set, a row with `1` at `r_index` and b entry `ub`; the lb
row first, then the ub row. -/
def DefaultFluxbound.materialize (c : DefaultFluxbound) (n : Nat) :
    List (List ℚ) × List ℚ :=
  let lbPart : List (List ℚ) × List ℚ :=
    match c.lb with
    | some l => ([((List.replicate n (0:ℚ)).set c.r_index (-1))], [-l])
    | none => ([], [])
  let ubPart : List (List ℚ) × List ℚ :=
    match c.ub with
    | some u => ([((List.replicate n (0:ℚ)).set c.r_index 1)], [u])
    | none => ([], [])
  (lbPart.1 ++ ubPart.1, lbPart.2 ++ ubPart.2)

/-- `DefaultYieldbound(lb, ub, numerator_index, denominator_index,
deviation=0)`; the constructor replaces a `None` deviation by 0. -/
structure DefaultYieldbound where
  lb : Option ℚ
  ub : Option ℚ
  numerator_index : Nat
  denominator_index : Nat
  deviation : ℚ

/-- `DefaultYieldbound.materialize(n)`: the lb row has `-1` at the
numerator and `lb` at the denominator, the ub row has `1` at the numerator
and `-ub` at the denominator; each contributes the deviation as b entry. -/
def DefaultYieldbound.materialize (c : DefaultYieldbound) (n : Nat) :
    List (List ℚ) × List ℚ :=
  let lbPart : List (List ℚ) × List ℚ :=
    match c.lb with
    | some l =>
      ([(((List.replicate n (0:ℚ)).set c.numerator_index (-1)).set
          c.denominator_index l)], [c.deviation])
    | none => ([], [])
  let ubPart : List (List ℚ) × List ℚ :=
    match c.ub with
    | some u =>
      ([(((List.replicate n (0:ℚ)).set c.numerator_index 1).set
          c.denominator_index (-u))], [c.deviation])
    | none => ([], [])
  (lbPart.1 ++ ubPart.1, lbPart.2 ++ ubPart.2)

/-- `DefaultYieldbound.from_tuple(tup)`: destructures
`n, d, ylb, yub = tup[:4]` and assigns `dev = tup[4]` only when
`len(tup) > 4`; the closing `DefaultYieldbound(ylb, yub, n, d, dev)` then
raises `NameError` for a 4-tuple because `dev` was never bound (the module
has no global named `dev`). The tuple is modelled as its first four fields
plus the optional fifth entry, itself an optional value since the entry may
be `None` (in which case the constructor defaults the deviation to 0). -/
def DefaultYieldbound.from_tuple (n d : Nat) (ylb yub : Option ℚ)
    (fifth : Option (Option ℚ)) : Except String DefaultYieldbound :=
  match fifth with
  | some dev => .ok ⟨ylb, yub, n, d, dev.getD 0⟩
  | none => .error "NameError: name dev is not defined"

/-- A constraint admissible for `InterventionProblem`. -/
inductive Constraint
  | fluxbound (c : DefaultFluxbound)
  | yieldbound (c : DefaultYieldbound)

/-- Dispatch of `const.materialize(n)` over the constraint classes. -/
def Constraint.materialize : Constraint → Nat → List (List ℚ) × List ℚ
  | .fluxbound c, n => c.materialize n
  | .yieldbound c, n => c.materialize n

/-- `InterventionProblem.generate_target_matrix(constraints)`: materializes
every constraint at the stored column count `self.__num_rx` and
concatenates the row blocks (`T = concatenate(Tlist, axis=0)`) and
right-hand sides (`b = array(list(chain(*blist)))`) in input order. -/
def generate_target_matrix (num_rx : Nat) (constraints : List Constraint) :
    List (List ℚ) × List ℚ :=
  ((constraints.map (fun c => (c.materialize num_rx).1)).flatten,
   (constraints.map (fun c => (c.materialize num_rx).2)).flatten)

/-- An observable side effect of the enumeration driver. -/
inductive Effect
  | warn (msg : String)
  | wroteLp (path : String)
  deriving DecidableEq, Repr

/-- `KShortestEnumerator.population_iterator(max_size)`: resets the
enumerator state and, for each size `1..max_size`, sets the size constraint
to `[i, i]` and populates; a solver error is re-raised, aborting the
enumeration. Returns the per-size batches and the final problem state. -/
def population_iterator (s : EnumSetup) (is_efp : Bool) (ivars : List Nat)
    (pop_outcomes : Nat → Except String (List (Nat → ℚ))) (max_size : Nat)
    (st : EnumProblem) :
    Except String (List (List (Nat → ℚ)) × EnumProblem) :=
  (List.range' 1 max_size).foldl
    (fun acc i =>
      match acc with
      | .error e => .error e
      | .ok (batches, stc) =>
        match populate s is_efp (pop_outcomes i)
            (set_size_constraint stc ivars (i : ℚ) true) with
        | .error e => .error e
        | .ok (sols, st2) => .ok (batches ++ [sols], st2))
    (.ok ([], reset_enumerator_state st ivars))

/-- `KShortestEFMAlgorithm.enumerate(linear_system, excluded_sets,
forced_sets)`: `__prepare` asserts the configuration holds a valid `METHOD`
(the `KShortestProperties` mandatory key, one of ITERATE/POPULATE),
constructs the enumerator and applies `exclude_solutions` /
`force_solutions` to any supplied sets — any supplied `excluded_sets` hits
the `exclude_solutions` `TypeError`. `get_enumerator` picks the strategy,
defaulting a missing MAXSOLUTIONS/MAXSIZE to 1 with a warning; `enumerate`
consumes the iterator (flattening the per-size batches for POPULATE) and
then always executes `linear_system.write_to_lp('test.lp')` before
returning (`write_to_lp` is modelled from the spec: the finished problem
"can be exported to a textual LP-format file"). Failure paths — missing or
invalid METHOD, the `excluded_sets` TypeError, a solver error during
populate — propagate as errors and never reach the write. -/
def KShortestEFMAlgorithm_enumerate
    (method : Option String) (maxsize maxsolutions : Option Nat)
    (s : EnumSetup) (is_efp : Bool) (ivars : List Nat)
    (outcomes : Nat → Option (Nat → ℚ))
    (pop_outcomes : Nat → Except String (List (Nat → ℚ)))
    (excluded_sets forced_sets : Option (List SolInput))
    (st : EnumProblem) :
    Except String (List (Nat → ℚ) × List Effect) :=
  if method = some "ITERATE" ∨ method = some "POPULATE" then
    if excluded_sets.isSome then
      .error "TypeError: __add_cuts missing 1 required positional argument: equality"
    else
      if method = some "ITERATE" then
        .ok ((solution_iterator s is_efp ivars outcomes (maxsolutions.getD 1)
            (match forced_sets with
             | some fs => add_cuts_body s is_efp st fs 0 true
             | none => st)).1,
          (if maxsolutions.isNone then
            [Effect.warn "You have not defined a maximum solution size for the enumeration process. Defaulting to 1."]
           else []) ++ [.wroteLp "test.lp"])
      else
        match population_iterator s is_efp ivars pop_outcomes (maxsize.getD 1)
            (match forced_sets with
             | some fs => add_cuts_body s is_efp st fs 0 true
             | none => st) with
        | .error e => .error e
        | .ok (batches, _) =>
          .ok (batches.flatten,
            (if maxsize.isNone then
              [Effect.warn "You have not defined a maximum size for the enumeration process. Defaulting to size 1."]
             else []) ++ [.wroteLp "test.lp"])
  else .error "Algorithm configuration is missing required parameters."

/-! ### Theorems -/

theorem cutStep_foldl_characterisation (s : EnumSetup) (value_map : Nat → ℚ)
    (efp_cut : Bool) (eps : ℚ) (l : List (Nat × List Nat)) (n : Nat) (vs : List Nat) :
    l.foldl (cutStep s value_map efp_cut eps) (n, vs) =
      (n + (l.filter (fun p => groupActive s value_map eps p.2)).length,
       vs ++ (l.filter (fun p => groupActive s value_map eps p.2)).flatMap
         (fun p => groupCutVars s efp_cut p.2)) := by
  induction l generalizing n vs with
  | nil => simp
  | cons hd tl ih =>
    by_cases hact : groupActive s value_map eps hd.2
    · simp only [List.foldl_cons, cutStep, hact, if_true, ih, List.filter_cons,
        List.flatMap_cons, List.length_cons]
      refine Prod.ext ?_ ?_
      · simp only [Prod.fst]
        omega
      · simp [List.append_assoc]
    · simp only [List.foldl_cons, cutStep, hact, if_false, ih, List.filter_cons]
      simp [hact]

theorem add_integer_cut_spec (s : EnumSetup) (value_map : Nat → ℚ)
    (efp_cut equality : Bool) (length_override eps : ℚ) :
    (add_integer_cut s value_map efp_cut equality length_override eps).vars =
      (activeGroups s value_map eps).flatMap (fun p => groupCutVars s efp_cut p.2) ∧
    (add_integer_cut s value_map efp_cut equality length_override eps).bub =
      some (((activeGroups s value_map eps).length : ℚ) -
        (if efp_cut then 0 else length_override)) ∧
    (add_integer_cut s value_map efp_cut equality length_override eps).blb =
      (if equality then
        (add_integer_cut s value_map efp_cut equality length_override eps).bub
       else none) := by
  unfold add_integer_cut activeGroups
  rw [cutStep_foldl_characterisation]
  refine ⟨rfl, ?_, ?_⟩
  · cases efp_cut <;> simp
  · cases equality <;> simp

/-- C1 (amended): every integer cut row built by `__add_integer_cut` sums
exactly the indicator (and, for pattern-based problems, auxiliary) variables
of the groups counted as active; its right-hand side equals the count of
active groups minus the given size override for non-pattern problems, while
for pattern-based (EFP) problems the override is ignored and the right-hand
side is exactly the active-group count; the row is an equality exactly when
`equality` (forcing) is set, and an upper-bound inequality otherwise. -/
theorem C1_integer_cut_row (s : EnumSetup) (value_map : Nat → ℚ)
    (efp_cut equality : Bool) (length_override eps : ℚ) :
    (add_integer_cut s value_map efp_cut equality length_override eps).vars =
      (activeGroups s value_map eps).flatMap (fun p => groupCutVars s efp_cut p.2) ∧
    (add_integer_cut s value_map efp_cut equality length_override eps).bub =
      some (((activeGroups s value_map eps).length : ℚ) -
        (if efp_cut then 0 else length_override)) ∧
    (add_integer_cut s value_map efp_cut equality length_override eps).blb =
      (if equality then
        (add_integer_cut s value_map efp_cut equality length_override eps).bub
       else none) :=
  add_integer_cut_spec s value_map efp_cut equality length_override eps

/-- C1 counterexample: on a pattern-based (EFP) problem, a cut added with
size override 1 has right-hand side equal to the active-group count itself
(here 1), not the active-group count minus the override, refuting the claim
that the right-hand side equals active count minus size override for every
call. -/
theorem C1_counterexample :
    (add_integer_cut exSetup (fun _ => 1) true false 1 default_eps).bub ≠
      some (((activeGroups exSetup (fun _ => 1) default_eps).length : ℚ) - 1) := by
  have hact : activeGroups exSetup (fun _ => 1) default_eps = [(0, [0])] := by
    simp [activeGroups, exSetup, groupActive, groupIndicators, default_eps]
    norm_num
  have hcut :
      (add_integer_cut exSetup (fun _ => 1) true false 1 default_eps).bub = some 1 := by
    unfold add_integer_cut
    rw [cutStep_foldl_characterisation]
    have : (List.filter (fun p => groupActive exSetup (fun _ => 1) default_eps p.2)
        exSetup.dvar_mapping) = [(0, [0])] := hact
    simp [this]
  rw [hcut, hact]
  norm_num

theorem sum_map_flatMap {α : Type} (vm : Nat → ℚ) (f : α → List Nat) (l : List α) :
    ((l.flatMap f).map vm).sum = (l.map (fun a => ((f a).map vm).sum)).sum := by
  induction l with
  | nil => simp
  | cons a t ih => simp [ih]

theorem binary_abs_map (vm : Nat → ℚ) (l : List Nat)
    (h : ∀ i, vm i = 0 ∨ vm i = 1) :
    l.map (fun i => |vm i|) = l.map vm := by
  apply List.map_congr_left
  intro i _
  rcases h i with h0 | h1
  · rw [h0]; norm_num
  · rw [h1]; norm_num

theorem binary_sum_nonneg (vm : Nat → ℚ) (l : List Nat)
    (h : ∀ i, vm i = 0 ∨ vm i = 1) : 0 ≤ (l.map vm).sum := by
  apply List.sum_nonneg
  intro x hx
  obtain ⟨i, _, rfl⟩ := List.mem_map.mp hx
  rcases h i with h0 | h1
  · rw [h0]
  · rw [h1]; norm_num

theorem binary_sum_ge_one (vm : Nat → ℚ) (l : List Nat)
    (h : ∀ i, vm i = 0 ∨ vm i = 1) (hpos : 0 < (l.map vm).sum) :
    1 ≤ (l.map vm).sum := by
  induction l with
  | nil => simp at hpos
  | cons a t ih =>
    rcases h a with h0 | h1
    · rw [List.map_cons, List.sum_cons, h0, zero_add] at hpos ⊢
      exact ih hpos
    · rw [List.map_cons, List.sum_cons, h1]
      have := binary_sum_nonneg vm t h
      linarith

theorem sum_ge_length (l : List ℚ) (h : ∀ x ∈ l, 1 ≤ x) :
    (l.length : ℚ) ≤ l.sum := by
  induction l with
  | nil => simp
  | cons a t ih =>
    have h1 := h a (List.mem_cons_self a t)
    have h2 := ih (fun x hx => h x (List.mem_cons_of_mem a hx))
    rw [List.length_cons, List.sum_cons]
    push_cast
    linarith

/-- For a non-EFP integer cut from a 0/1 value map: the generating assignment
sums to at least the active-group count over the cut's variables. -/
theorem cut_sum_ge_active_count (s : EnumSetup) (vm : Nat → ℚ) (eps : ℚ)
    (heps : 0 ≤ eps) (hbin : ∀ i, vm i = 0 ∨ vm i = 1) :
    ((activeGroups s vm eps).length : ℚ) ≤
      (((activeGroups s vm eps).flatMap (fun p => groupCutVars s false p.2)).map vm).sum := by
  rw [sum_map_flatMap]
  have hlen : (activeGroups s vm eps).length =
      ((activeGroups s vm eps).map
        (fun p => ((groupCutVars s false p.2).map vm).sum)).length := by
    rw [List.length_map]
  rw [hlen]
  apply sum_ge_length
  intro x hx
  obtain ⟨p, hp, rfl⟩ := List.mem_map.mp hx
  have hact : groupActive s vm eps p.2 = true := (List.mem_filter.mp hp).2
  have hlt : eps < ((groupIndicators s p.2).map (fun i => |vm i|)).sum := by
    simpa [groupActive] using hact
  rw [binary_abs_map vm _ hbin] at hlt
  have hpos : 0 < ((groupIndicators s p.2).map vm).sum := lt_of_le_of_lt heps hlt
  have := binary_sum_ge_one vm (groupIndicators s p.2) hbin hpos
  simpa [groupCutVars] using this

theorem op_add_integer_cut_rows (st : EnumProblem) (s : EnumSetup)
    (vm : Nat → ℚ) (efp_cut equality : Bool) (lo eps : ℚ) :
    (op_add_integer_cut st s vm efp_cut equality lo eps).rows =
      st.rows ++ [(st.next_id, ⟨"", add_integer_cut s vm efp_cut equality lo eps⟩)] ∧
    (op_add_integer_cut st s vm efp_cut equality lo eps).integer_cut_ids =
      st.integer_cut_ids ++ [st.next_id] := by
  simp [op_add_integer_cut, addRow]

theorem populateFold_mem_preserved (s : EnumSetup) (is_efp : Bool)
    (sols : List (Nat → ℚ)) (st : EnumProblem) (x : Nat × NamedRow) (i : Nat)
    (hx : x ∈ st.rows) (hi : i ∈ st.integer_cut_ids) :
    x ∈ (populateFold s is_efp sols st).rows ∧
      i ∈ (populateFold s is_efp sols st).integer_cut_ids := by
  induction sols generalizing st with
  | nil => exact ⟨hx, hi⟩
  | cons vm t ih =>
    apply ih
    · rw [(op_add_integer_cut_rows st s vm is_efp false 1 default_eps).1]
      exact List.mem_append_left _ hx
    · rw [(op_add_integer_cut_rows st s vm is_efp false 1 default_eps).2]
      exact List.mem_append_left _ hi

theorem populateFold_cons (s : EnumSetup) (is_efp : Bool) (vm : Nat → ℚ)
    (t : List (Nat → ℚ)) (st : EnumProblem) :
    populateFold s is_efp (vm :: t) st =
      populateFold s is_efp t (op_add_integer_cut st s vm is_efp false 1 default_eps) :=
  rfl

theorem populateFold_adds_cut (s : EnumSetup) (is_efp : Bool)
    (sols : List (Nat → ℚ)) (st : EnumProblem) (vm : Nat → ℚ) (hvm : vm ∈ sols) :
    ∃ id, (id, ⟨"", add_integer_cut s vm is_efp false 1 default_eps⟩) ∈
        (populateFold s is_efp sols st).rows ∧
      id ∈ (populateFold s is_efp sols st).integer_cut_ids := by
  induction sols generalizing st with
  | nil => cases hvm
  | cons hd t ih =>
    rw [populateFold_cons]
    rcases List.mem_cons.mp hvm with rfl | hvm2
    · refine ⟨st.next_id, ?_⟩
      have hstep := op_add_integer_cut_rows st s vm is_efp false 1 default_eps
      apply populateFold_mem_preserved
      · rw [hstep.1]
        exact List.mem_append_right _ (List.mem_singleton_self _)
      · rw [hstep.2]
        exact List.mem_append_right _ (List.mem_singleton_self _)
    · exact ih _ hvm2

/-- C2 (amended): for every solution returned by `__populate` — on
pattern-based (EFP) problems and ordinary ones alike — immediately after
the call an exclusion integer cut with size override equal to 1, not 0 as
claimed, has been added and tracked for that solution: an upper-bound row
(no lower bound) whose right-hand side is the active-group count minus 1
for non-pattern problems, while for pattern-based problems the override is
dropped and the right-hand side equals the active-group count itself; in
the non-pattern case the returned solution violates its own cut (its 0/1
indicator assignment sums over the cut's variables to at least the
active-group count), so a subsequent populate call cannot re-report it. -/
theorem C2_populate_excludes (s : EnumSetup) (is_efp : Bool) (st : EnumProblem)
    (sols : List (Nat → ℚ))
    (hbin : ∀ vm ∈ sols, ∀ i, vm i = 0 ∨ vm i = 1) :
    ∃ stf, populate s is_efp (.ok sols) st = .ok (sols, stf) ∧
      ∀ vm ∈ sols,
        ∃ id, (id, ⟨"", add_integer_cut s vm is_efp false 1 default_eps⟩) ∈ stf.rows ∧
          id ∈ stf.integer_cut_ids ∧
          (add_integer_cut s vm is_efp false 1 default_eps).blb = none ∧
          (add_integer_cut s vm is_efp false 1 default_eps).bub =
            some (((activeGroups s vm default_eps).length : ℚ) -
              (if is_efp then 0 else 1)) ∧
          (is_efp = false →
            ∀ rhs, (add_integer_cut s vm is_efp false 1 default_eps).bub = some rhs →
              rhs < (((add_integer_cut s vm is_efp false 1 default_eps).vars.map vm).sum)) := by
  refine ⟨populateFold s is_efp sols st, rfl, ?_⟩
  intro vm hvm
  obtain ⟨id, hrow, hid⟩ := populateFold_adds_cut s is_efp sols st vm hvm
  obtain ⟨hvars, hbub, hblb⟩ := add_integer_cut_spec s vm is_efp false 1 default_eps
  refine ⟨id, hrow, hid, by simpa using hblb, hbub, ?_⟩
  intro hefp rhs hrhs
  subst hefp
  rw [hbub] at hrhs
  simp only [if_neg Bool.false_ne_true, Option.some.injEq] at hrhs
  have hsum := cut_sum_ge_active_count s vm default_eps (by norm_num [default_eps])
    (hbin vm hvm)
  rw [hvars]
  linarith [hsum, hrhs]

/-- C2 witness: one raw solution with all variables set to 1 on the
one-reaction setup, starting from the empty problem. -/
theorem C2_witness :
    (∀ vm ∈ ([fun _ => (1:ℚ)] : List (Nat → ℚ)), ∀ i, vm i = 0 ∨ vm i = 1) ∧
    (∃ stf, populate exSetup false (.ok ([fun _ => (1:ℚ)] : List (Nat → ℚ)))
          emptyProblem = .ok (([fun _ => (1:ℚ)] : List (Nat → ℚ)), stf) ∧
      ∀ vm ∈ ([fun _ => (1:ℚ)] : List (Nat → ℚ)),
        ∃ id, (id, ⟨"", add_integer_cut exSetup vm false false 1 default_eps⟩) ∈ stf.rows ∧
          id ∈ stf.integer_cut_ids ∧
          (add_integer_cut exSetup vm false false 1 default_eps).blb = none ∧
          (add_integer_cut exSetup vm false false 1 default_eps).bub =
            some (((activeGroups exSetup vm default_eps).length : ℚ) -
              (if (false : Bool) then 0 else 1)) ∧
          ((false : Bool) = false →
            ∀ rhs, (add_integer_cut exSetup vm false false 1 default_eps).bub = some rhs →
              rhs <
                (((add_integer_cut exSetup vm false false 1 default_eps).vars.map vm).sum))) :=
  ⟨by intro vm hvm i; simp only [List.mem_singleton] at hvm; rw [hvm]; right; rfl,
   C2_populate_excludes exSetup false emptyProblem ([fun _ => (1:ℚ)] : List (Nat → ℚ))
     (by intro vm hvm i; simp only [List.mem_singleton] at hvm; rw [hvm]; right; rfl)⟩

/-- C2 counterexample: with one returned solution (all variables 1) on the
one-reaction setup, the only cut added by `__populate` has right-hand side
0 (= active count − 1, size override 1), whereas an exclusion cut with size
override 0 for that same solution would have right-hand side 1 — so no
size-override-0 cut is added, refuting the claim as stated. -/
theorem C2_counterexample :
    (populate exSetup false (.ok [fun _ => (1:ℚ)]) emptyProblem).map
        (fun r => r.2.rows.map (fun p => p.2.row.bub)) = .ok [some 0] ∧
    (add_integer_cut exSetup (fun _ => (1:ℚ)) false false 0 default_eps).bub = some 1 ∧
    some (0:ℚ) ≠ some (1:ℚ) := by
  have hact : ∀ lo : ℚ, (add_integer_cut exSetup (fun _ => (1:ℚ)) false false lo
      default_eps).bub = some (1 - lo) := by
    intro lo
    unfold add_integer_cut
    rw [cutStep_foldl_characterisation]
    have h1 : (List.filter
        (fun p => groupActive exSetup (fun _ => (1:ℚ)) default_eps p.2)
        exSetup.dvar_mapping) = [(0, [0])] := by
      simp [exSetup, groupActive, groupIndicators, default_eps]
      norm_num
    simp [h1]
  refine ⟨?_, by simpa using hact 0, by norm_num⟩
  have hcut : add_integer_cut exSetup (fun _ => (1:ℚ)) false false 1 default_eps =
      ⟨[8], none, some 0⟩ := by
    unfold add_integer_cut
    rw [cutStep_foldl_characterisation]
    have h1 : (List.filter
        (fun p => groupActive exSetup (fun _ => (1:ℚ)) default_eps p.2)
        exSetup.dvar_mapping) = [(0, [0])] := by
      simp [exSetup, groupActive, groupIndicators, default_eps]
      norm_num
    rw [h1]
    simp [groupCutVars, groupIndicators, exSetup]
  simp [populate, populateFold, op_add_integer_cut, addRow, emptyProblem, hcut,
    Except.map]

/-- C3: calling `exclude_solutions` with a raw one-reaction tuple does not
succeed: the delegated call `self.__add_cuts(sols, length_override=0)` omits
the required positional argument `equality` of `__add_cuts` and raises a
`TypeError`, leaving the problem untouched; moreover the raw-tuple branch of
`__add_cuts`, had it been reachable, builds its row over the indicator
variables of ALL decision variables (here `[10, 11]`) with right-hand side
`len(sol) - 1`, not over exactly the indicators listed in the tuple. -/
theorem C3_exclude_solutions_raises :
    exclude_solutions twoSetup false emptyProblem [.rawTuple [0]] =
      .typeError "__add_cuts missing 1 required positional argument: equality" ∧
    (add_cuts_body twoSetup false emptyProblem [.rawTuple [0]] 0 false).rows.map
        (fun p => p.2.row) = [⟨[10, 11], none, some 0⟩] := by
  refine ⟨rfl, ?_⟩
  simp [add_cuts_body, addRow, emptyProblem, twoSetup]

theorem flatten_replicate_length {α : Type} (n : Nat) (l : List α) :
    ((List.replicate n l).flatten).length = n * l.length := by
  induction n with
  | zero => simp
  | succ m ih => simp [List.replicate_succ, ih, Nat.succ_mul, Nat.add_comm]

theorem flatten_replicate_getD {α : Type} (n : Nat) (l : List α) (d : α) (i s : Nat)
    (hi : i < n) (hs : s < l.length) :
    ((List.replicate n l).flatten).getD (l.length * i + s) d = l.getD s d := by
  induction n generalizing i with
  | zero => omega
  | succ m ih =>
    rw [List.replicate_succ, List.flatten_cons]
    cases i with
    | zero =>
      rw [Nat.mul_zero, Nat.zero_add]
      exact List.getD_append _ _ _ _ hs
    | succ j =>
      have hlen : l.length ≤ l.length * (j + 1) + s := by
        calc l.length ≤ l.length * (j + 1) := Nat.le_mul_of_pos_right _ (by omega)
        _ ≤ l.length * (j + 1) + s := Nat.le_add_right _ _
      rw [List.getD_append_right _ _ _ _ hlen]
      have harith : l.length * (j + 1) + s - l.length = l.length * j + s := by
        have : l.length * (j + 1) = l.length * j + l.length := by ring
        omega
      rw [harith]
      exact ih j (by omega)

/-- C4 (amended): per decision variable the indicator encoder creates
exactly five variables — the indicator and four auxiliaries — every one of
them with bounds [0,1] and the binary type (none is left continuous or
unbounded), plus six constraint rows per dvar following the fixed template
matrix, with row lower bounds [1,0,0,0,0,0] and upper bounds
[1,∞,0,∞,0,∞]. -/
theorem C4_indicator_encoding (dvars : List Nat) :
    (add_kshortest_indicator_vars dvars).length = 5 * dvars.length ∧
    (∀ v ∈ add_kshortest_indicator_vars dvars,
      v.lb = some 0 ∧ v.ub = some 1 ∧ v.binary = true) ∧
    (row_blb dvars.length).length = 6 * dvars.length ∧
    (row_bub dvars.length).length = 6 * dvars.length ∧
    (∀ i < dvars.length, ∀ s < 6,
      (row_blb dvars.length).getD (6*i+s) none = template_blb.getD s none ∧
      (row_bub dvars.length).getD (6*i+s) none = template_bub.getD s none ∧
      ∀ t < 5, nrowmat dvars.length (6*i+s) (dvars.length + 5*i + t) =
        (template_matrix.getD s []).getD t 0) := by
  refine ⟨?_, ?_, ?_, ?_, ?_⟩
  · induction dvars with
    | nil => rfl
    | cons d t ih =>
      have hcons : add_kshortest_indicator_vars (d :: t) =
          add_variables_to_model
            [ "i" ++ toString d, "a" ++ toString d, "b" ++ toString d,
              "c" ++ toString d, "d" ++ toString d ]
            (List.replicate 5 0) (List.replicate 5 1) true ++
            add_kshortest_indicator_vars t := rfl
      have h5 : (add_variables_to_model
          [ "i" ++ toString d, "a" ++ toString d, "b" ++ toString d,
            "c" ++ toString d, "d" ++ toString d ]
          (List.replicate 5 0) (List.replicate 5 1) true).length = 5 := rfl
      rw [hcons, List.length_append, ih, h5, List.length_cons]
      ring
  · intro v hv
    rw [add_kshortest_indicator_vars, List.mem_flatMap] at hv
    obtain ⟨d, _, hv2⟩ := hv
    simp only [add_variables_to_model, List.zip_cons_cons, List.replicate,
      List.map_cons, List.mem_cons] at hv2
    rcases hv2 with rfl | rfl | rfl | rfl | rfl | h
    · exact ⟨rfl, rfl, rfl⟩
    · exact ⟨rfl, rfl, rfl⟩
    · exact ⟨rfl, rfl, rfl⟩
    · exact ⟨rfl, rfl, rfl⟩
    · exact ⟨rfl, rfl, rfl⟩
    · simp at h
  · rw [row_blb, flatten_replicate_length]
    simp [template_blb]
    ring
  · rw [row_bub, flatten_replicate_length]
    simp [template_bub]
    ring
  · intro i hi s hs
    have hblb : (row_blb dvars.length).getD (6*i+s) none = template_blb.getD s none := by
      rw [row_blb]
      have h6 : template_blb.length = 6 := rfl
      have h := flatten_replicate_getD dvars.length template_blb none i s hi (by rw [h6]; omega)
      rw [h6] at h
      exact h
    have hbub : (row_bub dvars.length).getD (6*i+s) none = template_bub.getD s none := by
      rw [row_bub]
      have h6 : template_bub.length = 6 := rfl
      have h := flatten_replicate_getD dvars.length template_bub none i s hi (by rw [h6]; omega)
      rw [h6] at h
      exact h
    refine ⟨hblb, hbub, ?_⟩
    intro t ht
    unfold nrowmat template_full
    have h1 : ¬ (dvars.length + 5*i + t < dvars.length) := by omega
    have h2 : dvars.length + 5*i + t < 6 * dvars.length := by omega
    rw [if_neg h1, if_pos h2]
    have h3 : dvars.length + 5*i + t - dvars.length = 5*i + t := by omega
    rw [h3]
    have hc : (6*i+s) / 6 = (5*i+t) / 5 ∧ 6*i+s < 6 * dvars.length ∧
        5*i+t < 5 * dvars.length := by
      refine ⟨?_, by omega, by omega⟩
      omega
    rw [if_pos hc]
    have hr6 : (6*i+s) % 6 = s := by omega
    have hc5 : (5*i+t) % 5 = t := by omega
    rw [hr6, hc5]

/-- C4 counterexample: for a single decision variable, the fourth created
variable (the auxiliary `c3`) has upper bound 1 and the binary type — it is
neither continuous nor unbounded, refuting the claim that the last two
auxiliaries are unbounded continuous variables. -/
theorem C4_counterexample :
    ((add_kshortest_indicator_vars [3]).getD 3 ⟨"", none, none, false⟩).name = "c3" ∧
    ((add_kshortest_indicator_vars [3]).getD 3 ⟨"", none, none, false⟩).ub = some 1 ∧
    ((add_kshortest_indicator_vars [3]).getD 3 ⟨"", none, none, false⟩).binary = true ∧
    some (1:ℚ) ≠ (none : Option ℚ) := by
  refine ⟨rfl, rfl, rfl, by simp⟩

/-- C4 witness: two decision variables give ten variables; the first row of
the second template block has lower bound 1, and its template entry at the
block's first column is 1. -/
theorem C4_witness :
    (add_kshortest_indicator_vars [3, 5]).length = 5 * 2 ∧
    (row_blb 2).getD 6 none = some 1 ∧
    nrowmat 2 6 7 = 1 := by
  obtain ⟨h1, _, _, _, h5⟩ := C4_indicator_encoding [3, 5]
  refine ⟨h1, ?_, ?_⟩
  · have := (h5 1 (by norm_num) 0 (by norm_num)).1
    simpa [template_blb] using this
  · have := ((h5 1 (by norm_num) 0 (by norm_num)).2.2) 0 (by norm_num)
    simpa [template_matrix] using this

theorem hasSizeRow_iff (st : EnumProblem) :
    hasSizeRow st = true ↔ ∃ p ∈ st.rows, p.2.name = KSH_SIZE_NAME := by
  simp [hasSizeRow, List.any_eq_true]

theorem set_size_rows_update (st : EnumProblem) (ivars : List Nat) (k : ℚ)
    (equal : Bool) (h : hasSizeRow st = true) :
    (set_size_constraint st ivars k equal).rows =
      st.rows.map (fun p => if p.2.name = KSH_SIZE_NAME
        then (p.1, ⟨p.2.name, ⟨p.2.row.vars, some k, if equal then some k else none⟩⟩)
        else p) ∧
    (set_size_constraint st ivars k equal).integer_cut_ids = st.integer_cut_ids ∧
    (set_size_constraint st ivars k equal).next_id = st.next_id := by
  rw [set_size_constraint, if_pos h]
  exact ⟨rfl, rfl, rfl⟩

theorem set_size_rows_add (st : EnumProblem) (ivars : List Nat) (k : ℚ)
    (equal : Bool) (h : ¬ hasSizeRow st = true) :
    (set_size_constraint st ivars k equal).rows =
      st.rows ++
        [(st.next_id, ⟨KSH_SIZE_NAME, ⟨ivars, some k, if equal then some k else none⟩⟩)] ∧
    (set_size_constraint st ivars k equal).integer_cut_ids = st.integer_cut_ids ∧
    (set_size_constraint st ivars k equal).next_id = st.next_id + 1 := by
  rw [set_size_constraint, if_neg h]
  exact ⟨rfl, rfl, rfl⟩

theorem set_size_constraint_fixes_one (st : EnumProblem) (ivars : List Nat) :
    size_rows_fixed_at_one (set_size_constraint st ivars 1 false) := by
  intro p hp hname
  by_cases h : hasSizeRow st = true
  · rw [(set_size_rows_update st ivars 1 false h).1] at hp
    obtain ⟨q, hq, hpq⟩ := List.mem_map.mp hp
    by_cases hqn : q.2.name = KSH_SIZE_NAME
    · rw [if_pos hqn] at hpq
      rw [← hpq]
      exact ⟨rfl, rfl⟩
    · rw [if_neg hqn] at hpq
      rw [← hpq] at hname
      exact absurd hname hqn
  · rw [(set_size_rows_add st ivars 1 false h).1] at hp
    rcases List.mem_append.mp hp with hin | hnew
    · exfalso
      exact h ((hasSizeRow_iff st).mpr ⟨p, hin, hname⟩)
    · rw [List.mem_singleton] at hnew
      rw [hnew]
      exact ⟨rfl, rfl⟩

theorem op_add_integer_cut_preserves_size_fixed (st : EnumProblem)
    (s : EnumSetup) (vm : Nat → ℚ) (efp_cut equality : Bool) (lo eps : ℚ)
    (h : size_rows_fixed_at_one st) :
    size_rows_fixed_at_one (op_add_integer_cut st s vm efp_cut equality lo eps) := by
  intro p hp hname
  rw [(op_add_integer_cut_rows st s vm efp_cut equality lo eps).1] at hp
  rcases List.mem_append.mp hp with h1 | h2
  · exact h p h1 hname
  · rw [List.mem_singleton] at h2
    rw [h2] at hname
    simp [KSH_SIZE_NAME] at hname

theorem solution_iterator_trace_size_fixed (s : EnumSetup) (is_efp : Bool)
    (outcomes : Nat → Option (Nat → ℚ)) (fuel : Nat) :
    ∀ (k : Nat) (st : EnumProblem), size_rows_fixed_at_one st →
      ∀ st2 ∈ solution_iterator_trace s is_efp outcomes k fuel st,
        size_rows_fixed_at_one st2 := by
  induction fuel with
  | zero =>
    intro k st h st2 hst2
    rw [solution_iterator_trace, List.mem_singleton] at hst2
    rw [hst2]
    exact h
  | succ m ih =>
    intro k st h st2 hst2
    rw [solution_iterator_trace] at hst2
    cases houtcome : outcomes k with
    | none =>
      rw [houtcome] at hst2
      have hst2s : st2 ∈ [st] := hst2
      rw [List.mem_singleton] at hst2s
      rw [hst2s]
      exact h
    | some vm =>
      rw [houtcome] at hst2
      have hst2s : st2 ∈ st :: solution_iterator_trace s is_efp outcomes (k+1) m
          (op_add_integer_cut st s vm is_efp false 1 default_eps) := hst2
      rcases List.mem_cons.mp hst2s with rfl | htail
      · exact h
      · exact ih (k+1) _
          (op_add_integer_cut_preserves_size_fixed _ s vm is_efp false 1 default_eps h)
          st2 htail

theorem solution_iterator_loop_sols (s : EnumSetup) (is_efp : Bool)
    (outcomes : Nat → Option (Nat → ℚ)) (fuel : Nat) :
    ∀ (k : Nat) (st : EnumProblem),
      (solution_iterator_loop s is_efp outcomes k fuel st).1 =
        collected outcomes k fuel := by
  induction fuel with
  | zero => intro k st; rfl
  | succ m ih =>
    intro k st
    rw [solution_iterator_loop, collected]
    cases houtcome : outcomes k with
    | none => rfl
    | some vm =>
      show (vm :: (solution_iterator_loop s is_efp outcomes (k+1) m
          (op_add_integer_cut st s vm is_efp false 1 default_eps)).1) =
        vm :: collected outcomes (k+1) m
      rw [ih]

/-- C5 (amended): in the iterate strategy the loop ends when the solver
reports no solution OR when `maximum_amount` solutions have been yielded:
the yielded list is exactly the stream of per-call optimize results up to
the first no-solution outcome, truncated at the budget (so an
always-feasible solver still ends the run there); a no-solution outcome
only ends the loop — the previously yielded solutions are returned and no
exception escapes the iterator; and the size constraint keeps bounds
`[1, ∞)` in every state of the run. -/
theorem C5_solution_iterator_behaviour (s : EnumSetup) (is_efp : Bool)
    (ivars : List Nat) (outcomes : Nat → Option (Nat → ℚ))
    (maximum_amount : Nat) (st : EnumProblem) :
    (solution_iterator s is_efp ivars outcomes maximum_amount st).1 =
      collected outcomes 0 maximum_amount ∧
    ∀ st2 ∈ solution_iterator_trace s is_efp outcomes 0 maximum_amount
        (set_size_constraint (reset_enumerator_state st ivars) ivars 1 false),
      size_rows_fixed_at_one st2 := by
  constructor
  · rw [solution_iterator]
    exact solution_iterator_loop_sols s is_efp outcomes maximum_amount 0 _
  · exact solution_iterator_trace_size_fixed s is_efp outcomes maximum_amount 0 _
      (set_size_constraint_fixes_one _ ivars)

/-- C5 counterexample: with a solver that always has a solution and a
budget of 1, the iterate run ends after one yield even though the solver
is not infeasible (the budget-2 run yields two), refuting termination
"exactly on infeasibility". -/
theorem C5_counterexample :
    (solution_iterator exSetup false [8] (fun _ => some (fun _ => (1:ℚ))) 1
      emptyProblem).1.length = 1 ∧
    (solution_iterator exSetup false [8] (fun _ => some (fun _ => (1:ℚ))) 2
      emptyProblem).1.length = 2 ∧
    (fun _ => some (fun _ => (1:ℚ)) : Nat → Option (Nat → ℚ)) 1 ≠ none := by
  refine ⟨rfl, rfl, by simp⟩

/-- C6: after `reset_enumerator_state`, every tracked integer cut row has
been removed from the problem, the tracking list is empty, the size
constraint is reset to bounds `[1, ∞)`, every row that is neither a
tracked cut nor the size row — in particular every indicator row and
exclusivity constraint — remains in the problem unchanged, and no row
beyond those of the original problem and the size row exists. -/
theorem C6_reset_enumerator_state (st : EnumProblem) (ivars : List Nat)
    (hwf : ∀ i ∈ st.integer_cut_ids, i < st.next_id) :
    (∀ p ∈ (reset_enumerator_state st ivars).rows, p.1 ∉ st.integer_cut_ids) ∧
    (reset_enumerator_state st ivars).integer_cut_ids = [] ∧
    size_rows_fixed_at_one (reset_enumerator_state st ivars) ∧
    (∀ p ∈ st.rows, p.1 ∉ st.integer_cut_ids → p.2.name ≠ KSH_SIZE_NAME →
      p ∈ (reset_enumerator_state st ivars).rows) ∧
    (∀ p ∈ (reset_enumerator_state st ivars).rows,
      p ∈ st.rows ∨ p.2.name = KSH_SIZE_NAME) := by
  set F : EnumProblem :=
    { st with
        rows := st.rows.filter (fun p => !(st.integer_cut_ids.contains p.1)),
        integer_cut_ids := [] } with hF
  have hreset : reset_enumerator_state st ivars = set_size_constraint F ivars 1 false := rfl
  have hFrows : ∀ p ∈ F.rows, p ∈ st.rows ∧ p.1 ∉ st.integer_cut_ids := by
    intro p hp
    rw [hF] at hp
    have h1 := List.mem_filter.mp hp
    refine ⟨h1.1, ?_⟩
    simpa using h1.2
  have hFnext : F.next_id = st.next_id := rfl
  refine ⟨?_, ?_, ?_, ?_, ?_⟩
  · intro p hp
    rw [hreset] at hp
    by_cases hs : hasSizeRow F = true
    · rw [(set_size_rows_update F ivars 1 false hs).1] at hp
      obtain ⟨q, hq, hpq⟩ := List.mem_map.mp hp
      have hid : p.1 = q.1 := by
        by_cases hqn : q.2.name = KSH_SIZE_NAME
        · rw [if_pos hqn] at hpq; rw [← hpq]
        · rw [if_neg hqn] at hpq; rw [← hpq]
      rw [hid]
      exact (hFrows q hq).2
    · rw [(set_size_rows_add F ivars 1 false hs).1] at hp
      rcases List.mem_append.mp hp with hin | hnew
      · exact (hFrows p hin).2
      · rw [List.mem_singleton] at hnew
        rw [hnew]
        intro hmem
        have hmem2 : st.next_id ∈ st.integer_cut_ids := by simpa [hFnext] using hmem
        exact lt_irrefl _ (hwf _ hmem2)
  · rw [hreset]
    by_cases hs : hasSizeRow F = true
    · rw [(set_size_rows_update F ivars 1 false hs).2.1]
    · rw [(set_size_rows_add F ivars 1 false hs).2.1]
  · rw [hreset]
    exact set_size_constraint_fixes_one F ivars
  · intro p hp hcut hname
    rw [hreset]
    have hpF : p ∈ F.rows := by
      rw [hF]
      apply List.mem_filter.mpr
      refine ⟨hp, ?_⟩
      simpa using hcut
    by_cases hs : hasSizeRow F = true
    · rw [(set_size_rows_update F ivars 1 false hs).1]
      apply List.mem_map.mpr
      exact ⟨p, hpF, by rw [if_neg hname]⟩
    · rw [(set_size_rows_add F ivars 1 false hs).1]
      exact List.mem_append_left _ hpF
  · intro p hp
    rw [hreset] at hp
    by_cases hs : hasSizeRow F = true
    · rw [(set_size_rows_update F ivars 1 false hs).1] at hp
      obtain ⟨q, hq, hpq⟩ := List.mem_map.mp hp
      by_cases hqn : q.2.name = KSH_SIZE_NAME
      · rw [if_pos hqn] at hpq
        right
        rw [← hpq]
        exact hqn
      · rw [if_neg hqn] at hpq
        left
        rw [← hpq]
        exact (hFrows q hq).1
    · rw [(set_size_rows_add F ivars 1 false hs).1] at hp
      rcases List.mem_append.mp hp with hin | hnew
      · exact Or.inl (hFrows p hin).1
      · rw [List.mem_singleton] at hnew
        right
        rw [hnew]

/-- C6 witness: a problem with one size row (bounds [5,5]) and one tracked
integer cut. -/
theorem C6_witness :
    (∀ i ∈ resetWitnessState.integer_cut_ids, i < resetWitnessState.next_id) ∧
    ((∀ p ∈ (reset_enumerator_state resetWitnessState [8]).rows,
        p.1 ∉ resetWitnessState.integer_cut_ids) ∧
     (reset_enumerator_state resetWitnessState [8]).integer_cut_ids = [] ∧
     size_rows_fixed_at_one (reset_enumerator_state resetWitnessState [8]) ∧
     (∀ p ∈ resetWitnessState.rows, p.1 ∉ resetWitnessState.integer_cut_ids →
        p.2.name ≠ KSH_SIZE_NAME →
        p ∈ (reset_enumerator_state resetWitnessState [8]).rows) ∧
     (∀ p ∈ (reset_enumerator_state resetWitnessState [8]).rows,
        p ∈ resetWitnessState.rows ∨ p.2.name = KSH_SIZE_NAME)) :=
  ⟨by intro i hi; simp [resetWitnessState] at hi ⊢; omega,
   C6_reset_enumerator_state resetWitnessState [8]
     (by intro i hi; simp [resetWitnessState] at hi ⊢; omega)⟩

theorem hasSizeRow_eq_count (st : EnumProblem) :
    hasSizeRow st = true ↔ sizeRowCount st ≠ 0 := by
  rw [hasSizeRow_iff, sizeRowCount]
  constructor
  · rintro ⟨p, hp, hname⟩ h0
    rw [List.length_eq_zero] at h0
    have hmem : p ∈ List.filter (fun p => p.2.name == KSH_SIZE_NAME) st.rows :=
      List.mem_filter.mpr ⟨hp, by simp [hname]⟩
    rw [h0] at hmem
    cases hmem
  · intro hne
    have hnil : List.filter (fun p => p.2.name == KSH_SIZE_NAME) st.rows ≠ [] := by
      intro hnil
      exact hne (by rw [hnil]; rfl)
    obtain ⟨p, hp⟩ := List.exists_mem_of_ne_nil _ hnil
    have h2 := List.mem_filter.mp hp
    exact ⟨p, h2.1, by simpa using h2.2⟩

theorem filter_length_map_update (rows : List (Nat × NamedRow)) (k : ℚ)
    (equal : Bool) :
    ((rows.map (fun p => if p.2.name = KSH_SIZE_NAME
        then (p.1, ⟨p.2.name, ⟨p.2.row.vars, some k, if equal then some k else none⟩⟩)
        else p)).filter (fun p => p.2.name == KSH_SIZE_NAME)).length =
      (rows.filter (fun p => p.2.name == KSH_SIZE_NAME)).length := by
  induction rows with
  | nil => rfl
  | cons q t ih =>
    by_cases hq : q.2.name = KSH_SIZE_NAME
    · simp [List.filter_cons, hq, ih]
    · simp [List.filter_cons, hq, ih]

/-- C7: at most one size constraint row exists at any time: with no size
row present, `set_size_constraint(k, equal)` appends exactly one row named
`KSH_SizeConstraint_` over the indicator variables, bounds `[k,k]` when
`equal` and `[k, ∞)` otherwise; with one present, the call updates that
same row's bounds in place — the row count stays the same, every other row
survives unchanged and no second size row appears — and either way exactly
one size row exists afterwards. -/
theorem C7_set_size_constraint (st : EnumProblem) (ivars : List Nat) (k : ℚ)
    (equal : Bool) (h : sizeRowCount st ≤ 1) :
    sizeRowCount (set_size_constraint st ivars k equal) = 1 ∧
    (sizeRowCount st = 0 →
      (set_size_constraint st ivars k equal).rows =
        st.rows ++ [(st.next_id,
          ⟨KSH_SIZE_NAME, ⟨ivars, some k, if equal then some k else none⟩⟩)]) ∧
    (sizeRowCount st = 1 →
      (set_size_constraint st ivars k equal).rows.length = st.rows.length ∧
      ∀ p ∈ st.rows,
        (p.2.name ≠ KSH_SIZE_NAME → p ∈ (set_size_constraint st ivars k equal).rows) ∧
        (p.2.name = KSH_SIZE_NAME →
          (p.1, ⟨p.2.name, ⟨p.2.row.vars, some k, if equal then some k else none⟩⟩) ∈
            (set_size_constraint st ivars k equal).rows)) := by
  by_cases hs : hasSizeRow st = true
  · have hc1 : sizeRowCount st = 1 := by
      have := (hasSizeRow_eq_count st).mp hs
      omega
    refine ⟨?_, ?_, ?_⟩
    · rw [sizeRowCount, (set_size_rows_update st ivars k equal hs).1,
        filter_length_map_update]
      exact hc1
    · intro h0
      rw [h0] at hc1
      cases hc1
    · intro _
      refine ⟨by rw [(set_size_rows_update st ivars k equal hs).1, List.length_map], ?_⟩
      intro p hp
      constructor
      · intro hname
        rw [(set_size_rows_update st ivars k equal hs).1]
        exact List.mem_map.mpr ⟨p, hp, if_neg hname⟩
      · intro hname
        rw [(set_size_rows_update st ivars k equal hs).1]
        exact List.mem_map.mpr ⟨p, hp, by rw [if_pos hname]⟩
  · have hc0 : sizeRowCount st = 0 := by
      by_contra hne
      exact hs ((hasSizeRow_eq_count st).mpr hne)
    refine ⟨?_, fun _ => (set_size_rows_add st ivars k equal hs).1, ?_⟩
    · rw [sizeRowCount, (set_size_rows_add st ivars k equal hs).1, List.filter_append,
        List.length_append]
      have h1 : (st.rows.filter (fun p => p.2.name == KSH_SIZE_NAME)).length = 0 := hc0
      rw [h1]
      simp
    · intro h1
      rw [h1] at hc0
      cases hc0

theorem getD_replicate_set_self (n i : Nat) (a : ℚ) (hi : i < n) :
    (((List.replicate n (0:ℚ)).set i a).getD i 0) = a := by
  rw [List.getD_eq_getElem _ _ (by simpa using hi)]
  rw [List.getElem_set_self]

theorem getD_replicate_set_other (n i j : Nat) (a : ℚ) (hj : j < n)
    (hne : j ≠ i) :
    (((List.replicate n (0:ℚ)).set i a).getD j 0) = 0 := by
  rw [List.getD_eq_getElem _ _ (by simpa using hj)]
  rw [List.getElem_set_ne (by omega)]
  simp

/-- C8: for a flux bound constraint with both bounds set at reaction index
`r_index < n`, `generate_target_matrix` returns a 2×n matrix whose first
row is −1 at `r_index` (b entry −lb) and whose second row is 1 at `r_index`
(b entry ub), with zeros in every other column. -/
theorem C8_fluxbound_target (l u : ℚ) (r n : Nat) (hr : r < n) :
    (generate_target_matrix n [.fluxbound ⟨some l, some u, r⟩]).1.length = 2 ∧
    (generate_target_matrix n [.fluxbound ⟨some l, some u, r⟩]).2 = [-l, u] ∧
    (∀ row ∈ (generate_target_matrix n [.fluxbound ⟨some l, some u, r⟩]).1,
      row.length = n) ∧
    ((generate_target_matrix n [.fluxbound ⟨some l, some u, r⟩]).1.getD 0 []).getD r 0
      = -1 ∧
    ((generate_target_matrix n [.fluxbound ⟨some l, some u, r⟩]).1.getD 1 []).getD r 0
      = 1 ∧
    (∀ j < n, j ≠ r →
      ((generate_target_matrix n [.fluxbound ⟨some l, some u, r⟩]).1.getD 0 []).getD j 0
        = 0 ∧
      ((generate_target_matrix n [.fluxbound ⟨some l, some u, r⟩]).1.getD 1 []).getD j 0
        = 0) := by
  have hT : (generate_target_matrix n [.fluxbound ⟨some l, some u, r⟩]).1 =
      [(List.replicate n (0:ℚ)).set r (-1), (List.replicate n (0:ℚ)).set r 1] := by
    simp [generate_target_matrix, Constraint.materialize, DefaultFluxbound.materialize]
  have hb : (generate_target_matrix n [.fluxbound ⟨some l, some u, r⟩]).2 = [-l, u] := by
    simp [generate_target_matrix, Constraint.materialize, DefaultFluxbound.materialize]
  refine ⟨by rw [hT]; rfl, hb, ?_, ?_, ?_, ?_⟩
  · intro row hrow
    rw [hT] at hrow
    rcases List.mem_cons.mp hrow with rfl | hrow2
    · simp
    · rw [List.mem_singleton] at hrow2
      rw [hrow2]
      simp
  · rw [hT]
    exact getD_replicate_set_self n r (-1) hr
  · rw [hT]
    exact getD_replicate_set_self n r 1 hr
  · intro j hj hne
    rw [hT]
    exact ⟨getD_replicate_set_other n r j (-1) hj hne,
      getD_replicate_set_other n r j 1 hj hne⟩

/-- C8 witness: one flux bound with lb = 2, ub = 5 at reaction 1 of a
3-reaction network. -/
theorem C8_witness :
    (1 < 3) ∧
    (generate_target_matrix 3 [.fluxbound ⟨some 2, some 5, 1⟩]).1.length = 2 ∧
    (generate_target_matrix 3 [.fluxbound ⟨some 2, some 5, 1⟩]).2 = [-2, 5] ∧
    ((generate_target_matrix 3 [.fluxbound ⟨some 2, some 5, 1⟩]).1.getD 0 []).getD 1 0
      = -1 ∧
    ((generate_target_matrix 3 [.fluxbound ⟨some 2, some 5, 1⟩]).1.getD 1 []).getD 1 0
      = 1 ∧
    ((generate_target_matrix 3 [.fluxbound ⟨some 2, some 5, 1⟩]).1.getD 0 []).getD 0 0
      = 0 := by
  obtain ⟨h1, h2, _, h4, h5, h6⟩ := C8_fluxbound_target 2 5 1 3 (by norm_num)
  exact ⟨by norm_num, h1, h2, h4, h5, (h6 0 (by norm_num) (by norm_num)).1⟩

/-- C9: `DefaultYieldbound.from_tuple` applied to a 4-tuple (numerator and
denominator indices and the two yield bounds, with no deviation entry)
raises the unbound-name error for `dev` instead of constructing a
constraint with deviation 0. -/
theorem C9_from_tuple_name_error (n d : Nat) (ylb yub : Option ℚ) :
    DefaultYieldbound.from_tuple n d ylb yub none =
      .error "NameError: name dev is not defined" :=
  rfl

/-- C10: every completed `KShortestEFMAlgorithm.enumerate` call — whatever
the configuration, strategy, forced sets or solver behaviour — has written
the linear system to the LP file `test.lp`. -/
theorem C10_enumerate_writes_lp (method : Option String)
    (maxsize maxsolutions : Option Nat) (s : EnumSetup) (is_efp : Bool)
    (ivars : List Nat) (outcomes : Nat → Option (Nat → ℚ))
    (pop_outcomes : Nat → Except String (List (Nat → ℚ)))
    (excluded_sets forced_sets : Option (List SolInput)) (st : EnumProblem)
    (sols : List (Nat → ℚ)) (effs : List Effect)
    (h : KShortestEFMAlgorithm_enumerate method maxsize maxsolutions s is_efp
      ivars outcomes pop_outcomes excluded_sets forced_sets st = .ok (sols, effs)) :
    Effect.wroteLp "test.lp" ∈ effs := by
  rw [KShortestEFMAlgorithm_enumerate.eq_def] at h
  split at h
  · split at h
    · cases h
    · split at h
      · simp only [Except.ok.injEq, Prod.mk.injEq] at h
        rw [← h.2]
        exact List.mem_append_right _ (List.mem_singleton_self _)
      · split at h
        · cases h
        · simp only [Except.ok.injEq, Prod.mk.injEq] at h
          rw [← h.2]
          exact List.mem_append_right _ (List.mem_singleton_self _)
  · cases h

/-- C10 witness: an ITERATE run with budget 1 on an immediately infeasible
solver. -/
theorem C10_witness :
    KShortestEFMAlgorithm_enumerate (some "ITERATE") none (some 1) exSetup
        false [8] (fun _ => none) (fun _ => .ok []) none none emptyProblem =
      .ok ([], [Effect.wroteLp "test.lp"]) ∧
    Effect.wroteLp "test.lp" ∈ [Effect.wroteLp "test.lp"] :=
  ⟨rfl, C10_enumerate_writes_lp (some "ITERATE") none (some 1) exSetup false [8]
    (fun _ => none) (fun _ => .ok []) none none emptyProblem []
    [Effect.wroteLp "test.lp"] rfl⟩

/-- C7 witness: a first call on the empty problem with k = 3, equal =
true. -/
theorem C7_witness :
    sizeRowCount emptyProblem ≤ 1 ∧
    (sizeRowCount (set_size_constraint emptyProblem [8] 3 true) = 1 ∧
    (sizeRowCount emptyProblem = 0 →
      (set_size_constraint emptyProblem [8] 3 true).rows =
        emptyProblem.rows ++ [(emptyProblem.next_id,
          ⟨KSH_SIZE_NAME, ⟨[8], some 3, if true then some 3 else none⟩⟩)]) ∧
    (sizeRowCount emptyProblem = 1 →
      (set_size_constraint emptyProblem [8] 3 true).rows.length =
        emptyProblem.rows.length ∧
      ∀ p ∈ emptyProblem.rows,
        (p.2.name ≠ KSH_SIZE_NAME →
          p ∈ (set_size_constraint emptyProblem [8] 3 true).rows) ∧
        (p.2.name = KSH_SIZE_NAME →
          (p.1, ⟨p.2.name, ⟨p.2.row.vars, some 3, if true then some 3 else none⟩⟩) ∈
            (set_size_constraint emptyProblem [8] 3 true).rows))) :=
  ⟨by decide, C7_set_size_constraint emptyProblem [8] 3 true (by decide)⟩

end Cobamp
